import Mathlib

/-!
Verification development for the YumeChain episode-generation tool.

The Python sources are embedded shallowly: dictionaries become association
lists (iteration order = insertion order, as in Python), `int(...)` becomes
an `Option Int`-valued parser, exceptions become `Except String`, and the
stable `list.sort` becomes an insertion sort that places an earlier element
before later elements with an equal key (the same stable order Python
guarantees).
-/

deriving instance DecidableEq for Except

namespace YumeChain

/-! ## Python string and integer primitives -/

/-- Whitespace predicate used by Python `str.strip()` (default argument). -/
def pyWs (c : Char) : Bool := c.isWhitespace

/-- Strip whitespace from both ends of a character list. -/
def stripChars (l : List Char) : List Char :=
  ((l.dropWhile pyWs).reverse.dropWhile pyWs).reverse

/-- Python `str.strip()`. -/
def pyStrip (s : String) : String := ⟨stripChars s.data⟩

/-- Value of a non-empty all-digit character list, `none` otherwise. -/
def digitsVal (l : List Char) : Option Nat :=
  if l.isEmpty then none
  else if l.all Char.isDigit then
    some (l.foldl (fun a c => a * 10 + (c.toNat - 48)) 0)
  else none

/-- Python `int(s)`: strips whitespace, accepts an optional sign followed by
ASCII digits, fails otherwise.  (Digit-group underscores and non-ASCII digits,
which `int` also accepts, are not modelled; the repository only feeds it
decimal episode keys and user range tokens.) -/
def pyInt? (s : String) : Option Int :=
  match stripChars s.data with
  | [] => none
  | c :: rest =>
    if c = '-' then (digitsVal rest).map (fun n => -(n : Int))
    else if c = '+' then (digitsVal rest).map (fun n => (n : Int))
    else (digitsVal (c :: rest)).map (fun n => (n : Int))

/-- Python `str.split(sep)` for a one-character separator (no maxsplit). -/
def splitOnChar (c : Char) : List Char → List (List Char)
  | [] => [[]]
  | x :: xs =>
    match splitOnChar c xs with
    | [] => [[]]
    | g :: gs => if x = c then [] :: g :: gs else (x :: g) :: gs

/-- Python `s.split(c)` returning strings. -/
def pySplit (s : String) (c : Char) : List String :=
  (splitOnChar c s.data).map (fun l => ⟨l⟩)

/-- Split at the first occurrence of `c` (Python `s.split(c, 1)` when `c`
occurs in `s`; only used under that guard in the source). -/
def splitFirst (c : Char) : List Char → List Char × List Char
  | [] => ([], [])
  | x :: xs =>
    if x = c then ([], xs)
    else
      match splitFirst c xs with
      | (a, b) => (x :: a, b)

/-- String version of `splitFirst`. -/
def pySplitOnce (s : String) (c : Char) : String × String :=
  match splitFirst c s.data with
  | (a, b) => (⟨a⟩, ⟨b⟩)

/-- Code-point lexicographic order on character lists: Python `str` `<`. -/
def listLtChar : List Char → List Char → Bool
  | [], [] => false
  | [], _ :: _ => true
  | _ :: _, [] => false
  | a :: as, b :: bs => if a < b then true else if b < a then false else listLtChar as bs

/-- Python string comparison (code-point lexicographic). -/
def strLt (a b : String) : Bool := listLtChar a.data b.data

/-- Python truthiness of a string: non-empty. -/
def pyTruthy (s : String) : Bool := !(s.data.isEmpty)

/-- Decimal digits of a natural number, most significant first (fuel-driven
so the kernel can evaluate it). -/
def natDigitsAux : Nat → Nat → List Char → List Char
  | 0, _, acc => acc
  | fuel + 1, n, acc =>
    if n < 10 then Char.ofNat (48 + n) :: acc
    else natDigitsAux fuel (n / 10) (Char.ofNat (48 + n % 10) :: acc)

/-- Python `str(n)` for a natural number. -/
def natToStr (n : Nat) : String := ⟨natDigitsAux (n + 1) n []⟩

/-- Python `str(i)` for an integer. -/
def intToStr (i : Int) : String :=
  if i < 0 then "-" ++ natToStr i.natAbs else natToStr i.toNat

/-! ## Stable sorting (Python `list.sort` / `sorted`)

Python's sort is stable and ascending.  For a total preorder `le` the stable
ascending reordering of a list is unique, so the insertion sort below — which
keeps an earlier element before any later element it is `le`-related to —
computes exactly the list Python's sort produces. -/

/-- Insert `x` (an element coming earlier in the original list) in front of
the first element `y` of the already-sorted suffix with `le x y`. -/
def insertSorted {α : Type} (le : α → α → Bool) (x : α) : List α → List α
  | [] => [x]
  | y :: ys => if le x y then x :: y :: ys else y :: insertSorted le x ys

/-- Stable insertion sort. -/
def sortBy {α : Type} (le : α → α → Bool) : List α → List α
  | [] => []
  | x :: xs => insertSorted le x (sortBy le xs)

/-! ## Plot store data model

A Python `dict` is embedded as an association list in insertion order with
unique keys; lookup takes the first matching entry. -/

/-- Mapping `episode number (decimal string key) → plot text`. -/
abbrev EpisodeMap := List (String × String)

/-- Mapping `arc name → episode map` (the persisted `plot.json` document). -/
abbrev PlotStore := List (String × EpisodeMap)

/-- Python `d.get(k)` / `k in d` on a string-keyed dict. -/
def dictGet? {α : Type} (d : List (String × α)) (k : String) : Option α :=
  (d.find? (fun p => decide (p.1 = k))).map (fun p => p.2)

/-! ## Episode-range parser

`parse_episode_numbers` appears twice in the repository, once in `main.py`
and once in `yumechain/cli.py`.  Each copy is embedded separately below; the
shared helpers model Python builtins (`str.split`, `str.strip`, `int`,
`set.add`, `sorted`). -/

/-- Python `set.add` on a duplicate-free list (insertion order kept; the
order is irrelevant because the caller sorts at the end). -/
def setAdd (acc : List Int) (x : Int) : List Int :=
  if acc.contains x then acc else acc ++ [x]

/-- Python `range(st, en + 1)` as a list (empty when `en < st`). -/
def pyRangeIncl (st en : Int) : List Int :=
  (List.range (en + 1 - st).toNat).map (fun k => st + (k : Int))

/-- Error text `f"エピソード番号 {ep} は範囲外です (1-{max_episode})"`. -/
def outOfRangeMsg (ep maxE : Int) : String :=
  "エピソード番号 " ++ intToStr ep ++ " は範囲外です (1-" ++ intToStr maxE ++ ")"

/-- Error text `f"範囲が無効です: {part} (開始が終了より大きい)"`. -/
def rangeInvalidMsg (part : String) : String :=
  "範囲が無効です: " ++ part ++ " (開始が終了より大きい)"

/-- Error text `f"無効な範囲形式: {part}"`. -/
def invalidRangeFormatMsg (part : String) : String := "無効な範囲形式: " ++ part

/-- Error text `f"無効な番号: {part}"`. -/
def invalidNumberMsg (part : String) : String := "無効な番号: " ++ part

/-- The `for ep in range(start, end + 1)` loop body of the range branch:
each value must lie in `[1, max_episode]` and is added to the set, the first
out-of-range value raises. -/
def addRangeEpisodes (maxE : Int) : List Int → List Int → Except String (List Int)
  | acc, [] => .ok acc
  | acc, ep :: rest =>
    if decide (1 ≤ ep) && decide (ep ≤ maxE) then addRangeEpisodes maxE (setAdd acc ep) rest
    else .error (outOfRangeMsg ep maxE)

/-- One comma-separated token of `parse_episode_numbers` (`main.py` copy):
strip, then either a `start-end` range or a single number.  An `int()`
failure message contains "invalid literal" and is rewritten by the source's
`except` clause; the explicit range/bound errors are re-raised unchanged. -/
def processTokenMain (maxE : Int) (acc : List Int) (rawPart : String) : Except String (List Int) :=
  let part := pyStrip rawPart
  if part.data.contains '-' then
    match pySplitOnce part '-' with
    | (s0, e0) =>
      match pyInt? s0, pyInt? e0 with
      | some st, some en =>
        if decide (st > en) then .error (rangeInvalidMsg part)
        else addRangeEpisodes maxE acc (pyRangeIncl st en)
      | _, _ => .error (invalidRangeFormatMsg part)
  else
    match pyInt? part with
    | some ep =>
      if decide (1 ≤ ep) && decide (ep ≤ maxE) then .ok (setAdd acc ep)
      else .error (outOfRangeMsg ep maxE)
    | none => .error (invalidNumberMsg part)

/-- The token loop of the `main.py` copy. -/
def foldTokensMain (maxE : Int) : List String → List Int → Except String (List Int)
  | [], acc => .ok acc
  | p :: ps, acc =>
    match processTokenMain maxE acc p with
    | .error e => .error e
    | .ok acc2 => foldTokensMain maxE ps acc2

/-- Embedding of `parse_episode_numbers` from `main.py` (lines 186-241). -/
def parse_episode_numbers_main (episodesStr : String) (maxEpisode : Int) : Except String (List Int) :=
  match foldTokensMain maxEpisode (pySplit episodesStr ',') [] with
  | .error e => .error e
  | .ok acc => .ok (sortBy (fun a b => decide (a ≤ b)) acc)

/-- One comma-separated token of the `yumechain/cli.py` copy (whose source
text is character-for-character the text of the `main.py` copy). -/
def processTokenCli (maxE : Int) (acc : List Int) (rawPart : String) : Except String (List Int) :=
  let part := pyStrip rawPart
  if part.data.contains '-' then
    match pySplitOnce part '-' with
    | (s0, e0) =>
      match pyInt? s0, pyInt? e0 with
      | some st, some en =>
        if decide (st > en) then .error (rangeInvalidMsg part)
        else addRangeEpisodes maxE acc (pyRangeIncl st en)
      | _, _ => .error (invalidRangeFormatMsg part)
  else
    match pyInt? part with
    | some ep =>
      if decide (1 ≤ ep) && decide (ep ≤ maxE) then .ok (setAdd acc ep)
      else .error (outOfRangeMsg ep maxE)
    | none => .error (invalidNumberMsg part)

/-- The token loop of the `yumechain/cli.py` copy. -/
def foldTokensCli (maxE : Int) : List String → List Int → Except String (List Int)
  | [], acc => .ok acc
  | p :: ps, acc =>
    match processTokenCli maxE acc p with
    | .error e => .error e
    | .ok acc2 => foldTokensCli maxE ps acc2

/-- Embedding of `parse_episode_numbers` from `yumechain/cli.py`
(lines 191-246). -/
def parse_episode_numbers_cli (episodesStr : String) (maxEpisode : Int) : Except String (List Int) :=
  match foldTokensCli maxEpisode (pySplit episodesStr ',') [] with
  | .error e => .error e
  | .ok acc => .ok (sortBy (fun a b => decide (a ≤ b)) acc)

/-! ## FileManager (`file_manager.py`, identical in `yumechain/file_manager.py`
for the methods embedded here) -/

/-- Python `d[k] = v` on a string-keyed dict: replace in place if the key
exists, append otherwise. -/
def dictSet {α : Type} (d : List (String × α)) (k : String) (v : α) : List (String × α) :=
  if (d.find? (fun p => decide (p.1 = k))).isSome then
    d.map (fun p => if p.1 = k then (p.1, v) else p)
  else d ++ [(k, v)]

/-- Python `old.update(new)`: one `__setitem__` per entry of `new`. -/
def dictUpdate (old new : PlotStore) : PlotStore :=
  new.foldl (fun d p => dictSet d p.1 p.2) old

/-- Embedding of `FileManager.save_plot` (file_manager.py lines 70-85): the
persisted file is the `existing` argument (`none` when `plot.json` does not
exist); with `merge` set and an existing file the existing document is
updated arc-by-arc with `dict.update`, otherwise `plot_data` is written as
is.  (The source's warning path for an unreadable existing file ends in the
same "write `plot_data` unmerged" behaviour as the missing-file path.) -/
def save_plot (existing : Option PlotStore) (plot_data : PlotStore) (merge : Bool) : PlotStore :=
  if merge then
    match existing with
    | some old => dictUpdate old plot_data
    | none => plot_data
  else plot_data

/-- The ArcNotFound message `f"Arc '{arc}' not found in plot"`. -/
def arcNotFoundMsg (arc : String) : String :=
  "Arc \x27" ++ arc ++ "\x27 not found in plot"

/-- The EpisodeNotFound message `f"Episode {episode} not found in arc '{arc}'"`. -/
def episodeNotFoundMsg (episode : Int) (arc : String) : String :=
  "Episode " ++ intToStr episode ++ " not found in arc \x27" ++ arc ++ "\x27"

/-- Embedding of `FileManager.get_episode_plot` (file_manager.py lines
96-107), applied to an already-read plot document. -/
def get_episode_plot (plot_data : PlotStore) (arc : String) (episode : Int) : Except String String :=
  match dictGet? plot_data arc with
  | none => .error (arcNotFoundMsg arc)
  | some arcMap =>
    match dictGet? arcMap (intToStr episode) with
    | none => .error (episodeNotFoundMsg episode arc)
    | some text => .ok text

/-- The flattening loop of `get_previous_episode_content` (yumechain/
file_manager.py lines 202-209): all `(arc, episode)` pairs whose episode key
parses as an integer, in store iteration order. -/
def flattenPairs (store : PlotStore) : List (String × Int) :=
  store.flatMap (fun p => p.2.filterMap (fun q => (pyInt? q.1).map (fun n => (p.1, n))))

/-- Python tuple `<=` on a `(str, int)` sort key. -/
def pairLe (a b : String × Int) : Bool :=
  strLt a.1 b.1 || (decide (a.1 = b.1) && decide (a.2 ≤ b.2))

/-- Predicate of the linear scan at lines 216-219. -/
def pairMatches (arc : String) (episode : Int) (p : String × Int) : Bool :=
  decide (p.1 = arc) && decide (p.2 = episode)

/-- Embedding of `FileManager.get_previous_episode_content`
(yumechain/file_manager.py lines 193-233) on an in-memory `plot_data`
snapshot.  The disk read of the neighbouring episode file (`read_episode`,
line 226) is abstracted as the oracle `readEpisode`; the `plot_data is None`
branch (lines 195-199, a disk read of `plot.json`) is outside the claims and
not embedded. -/
def get_previous_episode_content (readEpisode : String → Int → String)
    (plot_data : PlotStore) (arc : String) (episode : Int) : String :=
  let allEpisodes := sortBy pairLe (flattenPairs plot_data)
  match List.findIdx? (pairMatches arc episode) allEpisodes with
  | none => ""
  | some 0 => ""
  | some (i + 1) =>
    match allEpisodes[i]? with
    | some prev => readEpisode prev.1 prev.2
    | none => ""

/-! ## Episode order resolver and context assembler (`llm_client.py`) -/

/-- The two directions of an adjacency query. -/
inductive Direction : Type
  | previous
  | next
deriving DecidableEq

/-- Flattening of the plot store into `(arc, episode, text)` triples,
skipping entries whose episode key does not parse as an integer. -/
def flattenTriples (store : PlotStore) : List (String × Int × String) :=
  store.flatMap (fun p => p.2.filterMap (fun q => (pyInt? q.1).map (fun n => (p.1, n, q.2))))

/-- Python tuple `<=` on the `(arc, episode)` sort key of a triple. -/
def tripleLe (a b : String × Int × String) : Bool :=
  strLt a.1 b.1 || (decide (a.1 = b.1) && decide (a.2.1 ≤ b.2.1))

/-- Predicate locating the current episode's triple. -/
def tripleMatches (arc : String) (episode : Int) (t : String × Int × String) : Bool :=
  decide (t.1 = arc) && decide (t.2.1 = episode)

/-- The derived global order: the flattened store sorted ascending by
`(arc name, episode number)`. -/
def globalOrder (store : PlotStore) : List (String × Int × String) :=
  sortBy tripleLe (flattenTriples store)

/-- Modelled from the spec: `LLMClient._get_adjacent_episode_plot_by_file_order`
is called at llm_client.py lines 508-509 but its definition is not among the
provided sources; per spec §4.1 it flattens the plot store into
`(arc, episode_int, text)` triples (silently skipping unparsable episode
keys), sorts ascending by `(arc string, episode int)`, locates the current
triple by linear scan (empty result when absent), and returns the text of
the neighbour in the requested direction, or `""` at a store boundary. -/
def get_adjacent_episode_plot_by_file_order (plot_data : PlotStore) (arc : String)
    (episode : Int) (direction : Direction) : String :=
  let ordered := globalOrder plot_data
  match List.findIdx? (tripleMatches arc episode) ordered with
  | none => ""
  | some i =>
    match direction with
    | .previous =>
      if i = 0 then ""
      else
        match ordered[i - 1]? with
        | some t => t.2.2
        | none => ""
    | .next =>
      match ordered[i + 1]? with
      | some t => t.2.2
      | none => ""

/-- The `current_plot` lookup of `LLMClient.generate_episode_with_context`
(llm_client.py lines 502-505):
`plot_data.get(arc, {}).get(str(episode), "")`, raising the EpisodeNotFound
`ValueError` when the result is falsy (absent key or empty text). -/
def assembler_current_plot (plot_data : PlotStore) (arc : String) (episode : Int) :
    Except String String :=
  let current := (dictGet? ((dictGet? plot_data arc).getD []) (intToStr episode)).getD ""
  if pyTruthy current then .ok current else .error (episodeNotFoundMsg episode arc)

/-- The two prompt shapes of `generate_episode_with_context`: the
"with adjacency context" template and the plain single-plot template. -/
inductive PromptVariant : Type
  | withContext
  | plain
deriving DecidableEq

/-- The prompt-template selection of `LLMClient.generate_episode_with_context`
(llm_client.py lines 502-566): after the `current_plot` lookup, the previous
and next plots are resolved by file order and the contextual template is
chosen exactly when `previous_plot or next_plot` is truthy.  (The condition
is the same in the context-cache and plain branches of the source; the
returned variant records which template shapes the prompt.) -/
def generate_episode_with_context (plot_data : PlotStore) (arc : String) (episode : Int) :
    Except String PromptVariant :=
  match assembler_current_plot plot_data arc episode with
  | .error e => .error e
  | .ok _ =>
    let previousPlot := get_adjacent_episode_plot_by_file_order plot_data arc episode .previous
    let nextPlot := get_adjacent_episode_plot_by_file_order plot_data arc episode .next
    if pyTruthy previousPlot || pyTruthy nextPlot then .ok .withContext else .ok .plain

/-! ## Batch episode generation (`main.py`, `generate_episode` command,
lines 852-976)

The command is embedded as a trace of the events the claims talk about.
External collaborators are oracles: `episodeExists` is the stories-directory
check, `genOk` tells whether the LLM call plus save for a given episode
succeeds (any exception there is caught by the per-episode handler). -/

/-- Observable events of one `generate-episode` invocation. -/
inductive BatchEvent : Type
  | abortedPlotMissing
  | abortedArcMissing
  | abortedParse (msg : String)
  | abortedSettings
  | llmCall (episode : Int)
  | saved (episode : Int)
  | report (success : Nat) (errors : Nat)
deriving DecidableEq

/-- The per-episode loop (main.py lines 938-968): skip existing files unless
forced, count a plot-lookup failure and continue, otherwise call the LLM and
count success or failure, carrying `(success_count, error_count, trace)`. -/
def runEpisodeLoop (plot_data : PlotStore) (arc : String) (episodeExists : Int → Bool)
    (force : Bool) (genOk : Int → Bool) :
    List Int → Nat × Nat × List BatchEvent → Nat × Nat × List BatchEvent
  | [], acc => acc
  | ep :: rest, (s, e, tr) =>
    if episodeExists ep && !force then
      runEpisodeLoop plot_data arc episodeExists force genOk rest (s, e, tr)
    else
      match get_episode_plot plot_data arc ep with
      | .error _ => runEpisodeLoop plot_data arc episodeExists force genOk rest (s, e + 1, tr)
      | .ok _ =>
        if genOk ep then
          runEpisodeLoop plot_data arc episodeExists force genOk rest
            (s + 1, e, tr ++ [.llmCall ep, .saved ep])
        else
          runEpisodeLoop plot_data arc episodeExists force genOk rest
            (s, e + 1, tr ++ [.llmCall ep])

/-- Embedding of the `generate_episode` command (main.py lines 852-976):
`plotFile` is the `read_plot` result (`none` for FileNotFoundError), the arc
must be a key of the document, the episode expression is parsed against
`max_episode = len(plot_data[arc])`, `settings` is the `read_all_settings`
result, and — dry runs aside — the per-episode loop runs and a final
success/error count report is printed. -/
def generate_episode_batch (plotFile : Option PlotStore) (arc : String)
    (episodesStr : String) (settings : Option String) (dryRun force : Bool)
    (episodeExists : Int → Bool) (genOk : Int → Bool) : List BatchEvent :=
  match plotFile with
  | none => [.abortedPlotMissing]
  | some plot_data =>
    match dictGet? plot_data arc with
    | none => [.abortedArcMissing]
    | some arcMap =>
      match parse_episode_numbers_main episodesStr (arcMap.length : Int) with
      | .error m => [.abortedParse m]
      | .ok episodeList =>
        match settings with
        | none => [.abortedSettings]
        | some _ =>
          if dryRun then []
          else
            match runEpisodeLoop plot_data arc episodeExists force genOk episodeList (0, 0, []) with
            | (s, e, tr) => tr ++ [.report s e]

/-! ## Ambient program state

Used to state the purity hyperproperty of the resolver: the shallow
embedding renders "no side effects, no disk or network access" as
noninterference — the result depends only on the plot-store snapshot, and
the ambient state is returned unchanged. -/

/-- The state surrounding a resolver call: the snapshot it receives plus the
ambient state it must not touch (story files on disk, network history). -/
structure AppState : Type where
  plotStore : PlotStore
  storyFiles : List (String × String)
  networkLog : List String

/-- The resolver viewed as a state transformer: it computes its answer from
the snapshot in the state and leaves the state as it found it. -/
def resolveAdjacentInState (st : AppState) (arc : String) (episode : Int)
    (direction : Direction) : String × AppState :=
  (get_adjacent_episode_plot_by_file_order st.plotStore arc episode direction, st)

/-! # Theorems -/

/-! ## Sorting lemmas -/

theorem insertSorted_perm {α : Type} (le : α → α → Bool) (x : α) :
    ∀ l : List α, (insertSorted le x l).Perm (x :: l) := by
  intro l
  induction l with
  | nil => simp [insertSorted]
  | cons y ys ih =>
    simp only [insertSorted]
    by_cases h : le x y
    · simp [h]
    · simp only [h, if_neg, Bool.false_eq_true, not_false_eq_true, ite_false]
      exact (ih.cons y).trans (List.Perm.swap x y ys)

theorem sortBy_perm {α : Type} (le : α → α → Bool) :
    ∀ l : List α, (sortBy le l).Perm l := by
  intro l
  induction l with
  | nil => simp [sortBy]
  | cons x xs ih =>
    exact (insertSorted_perm le x (sortBy le xs)).trans (ih.cons x)

theorem insertSorted_pairwise {α : Type} (le : α → α → Bool)
    (htot : ∀ a b, le a b = true ∨ le b a = true)
    (htrans : ∀ a b c, le a b = true → le b c = true → le a c = true)
    (x : α) :
    ∀ l : List α, List.Pairwise (fun a b => le a b = true) l →
      List.Pairwise (fun a b => le a b = true) (insertSorted le x l) := by
  intro l
  induction l with
  | nil => intro _; simp [insertSorted]
  | cons y ys ih =>
    intro hp
    rcases List.pairwise_cons.mp hp with ⟨hy, hys⟩
    simp only [insertSorted]
    by_cases h : le x y
    · simp only [h, ite_true]
      refine List.pairwise_cons.mpr ⟨?_, hp⟩
      intro b hb
      rcases List.mem_cons.mp hb with hb1 | hb2
      · exact hb1 ▸ h
      · exact htrans x y b h (hy b hb2)
    · simp only [h, Bool.false_eq_true, if_neg, not_false_eq_true, ite_false]
      refine List.pairwise_cons.mpr ⟨?_, ih hys⟩
      intro b hb
      rcases List.mem_cons.mp ((insertSorted_perm le x ys).mem_iff.mp hb) with hb1 | hb2
      · subst hb1
        rcases htot y b with hyb | hby
        · exact hyb
        · exact absurd hby (by simpa using h)
      · exact hy b hb2

theorem sortBy_pairwise {α : Type} (le : α → α → Bool)
    (htot : ∀ a b, le a b = true ∨ le b a = true)
    (htrans : ∀ a b c, le a b = true → le b c = true → le a c = true) :
    ∀ l : List α, List.Pairwise (fun a b => le a b = true) (sortBy le l) := by
  intro l
  induction l with
  | nil => simp [sortBy]
  | cons x xs ih => exact insertSorted_pairwise le htot htrans x _ ih

/-! ## Range-parser invariants -/

theorem setAdd_mem {acc : List Int} {x y : Int} :
    y ∈ setAdd acc x → y ∈ acc ∨ y = x := by
  intro h
  unfold setAdd at h
  by_cases hc : acc.contains x
  · simp only [hc, ite_true] at h
    exact Or.inl h
  · simp only [hc, Bool.false_eq_true, if_neg, not_false_eq_true, ite_false] at h
    rcases List.mem_append.mp h with h1 | h2
    · exact Or.inl h1
    · exact Or.inr (List.mem_singleton.mp h2)

theorem setAdd_nodup {acc : List Int} {x : Int} (h : acc.Nodup) :
    (setAdd acc x).Nodup := by
  unfold setAdd
  by_cases hc : acc.contains x = true
  · rw [if_pos hc]
    exact h
  · rw [if_neg hc]
    have hx : x ∉ acc := by simpa using hc
    refine List.Nodup.append h (List.nodup_singleton x) ?_
    intro a ha hb
    rcases List.mem_singleton.mp hb
    exact hx ha

theorem addRangeEpisodes_invariant {maxE : Int} :
    ∀ {l acc acc2 : List Int}, addRangeEpisodes maxE acc l = .ok acc2 →
      acc.Nodup → (∀ y ∈ acc, 1 ≤ y ∧ y ≤ maxE) →
      acc2.Nodup ∧ ∀ y ∈ acc2, 1 ≤ y ∧ y ≤ maxE := by
  intro l
  induction l with
  | nil =>
    intro acc acc2 h hn hb
    cases h
    exact ⟨hn, hb⟩
  | cons ep rest ih =>
    intro acc acc2 h hn hb
    unfold addRangeEpisodes at h
    by_cases hok : (decide (1 ≤ ep) && decide (ep ≤ maxE)) = true
    · rw [if_pos hok] at h
      have hep : 1 ≤ ep ∧ ep ≤ maxE := by simpa using hok
      refine ih h (setAdd_nodup hn) ?_
      intro y hy
      rcases setAdd_mem hy with h1 | h2
      · exact hb y h1
      · exact h2 ▸ hep
    · rw [if_neg hok] at h
      cases h

theorem processTokenMain_invariant {maxE : Int} {acc acc2 : List Int} {part : String}
    (h : processTokenMain maxE acc part = .ok acc2)
    (hn : acc.Nodup) (hb : ∀ y ∈ acc, 1 ≤ y ∧ y ≤ maxE) :
    acc2.Nodup ∧ ∀ y ∈ acc2, 1 ≤ y ∧ y ≤ maxE := by
  unfold processTokenMain at h
  by_cases hd : (pyStrip part).data.contains '-'
  · rw [if_pos hd] at h
    rcases hsp : pySplitOnce (pyStrip part) '-' with ⟨s0, e0⟩
    rw [hsp] at h
    rcases hs : pyInt? s0 with _ | st <;> rcases he : pyInt? e0 with _ | en <;>
      simp only [hs, he] at h
    · cases h
    · cases h
    · cases h
    · by_cases hgt : decide (st > en) = true
      · rw [if_pos hgt] at h; cases h
      · rw [if_neg hgt] at h
        exact addRangeEpisodes_invariant h hn hb
  · rw [if_neg hd] at h
    rcases hp : pyInt? (pyStrip part) with _ | ep <;> simp only [hp] at h
    · cases h
    · by_cases hok : (decide (1 ≤ ep) && decide (ep ≤ maxE)) = true
      · rw [if_pos hok] at h
        cases h
        have hep : 1 ≤ ep ∧ ep ≤ maxE := by simpa using hok
        refine ⟨setAdd_nodup hn, ?_⟩
        intro y hy
        rcases setAdd_mem hy with h1 | h2
        · exact hb y h1
        · exact h2 ▸ hep
      · rw [if_neg hok] at h; cases h

theorem foldTokensMain_invariant {maxE : Int} :
    ∀ {parts : List String} {acc acc2 : List Int},
      foldTokensMain maxE parts acc = .ok acc2 →
      acc.Nodup → (∀ y ∈ acc, 1 ≤ y ∧ y ≤ maxE) →
      acc2.Nodup ∧ ∀ y ∈ acc2, 1 ≤ y ∧ y ≤ maxE := by
  intro parts
  induction parts with
  | nil =>
    intro acc acc2 h hn hb
    cases h
    exact ⟨hn, hb⟩
  | cons p ps ih =>
    intro acc acc2 h hn hb
    unfold foldTokensMain at h
    rcases hp : processTokenMain maxE acc p with e | acc1 <;> rw [hp] at h
    · cases h
    · rcases processTokenMain_invariant hp hn hb with ⟨hn1, hb1⟩
      exact ih h hn1 hb1

/-! ## Claim C3: the episode-range parser -/

/-- C3: `parse_episode_numbers` splits its input on commas and validates each
token against `[1, max_episode]`; on success the result is a strictly
ascending (hence deduplicated) sequence whose members all lie in
`[1, max_episode]`, and the four example behaviours of the spec hold:
`parse("1-3,7,9-10", 10) = [1,2,3,7,9,10]`, `parse("5-2", 10)` fails with
the start-greater-than-end error, `parse("11", 10)` fails with the
out-of-range error, and `parse("1,1,2", 10) = [1,2]`. -/
theorem parse_episode_numbers_correct :
    (∀ (s : String) (maxE : Int) (l : List Int),
        parse_episode_numbers_main s maxE = .ok l →
          List.Pairwise (fun a b => a < b) l ∧ ∀ y ∈ l, 1 ≤ y ∧ y ≤ maxE)
    ∧ parse_episode_numbers_main ("1-3,7,9-10") 10 = .ok [1, 2, 3, 7, 9, 10]
    ∧ parse_episode_numbers_main ("5-2") 10 = .error (rangeInvalidMsg ("5-2"))
    ∧ parse_episode_numbers_main ("11") 10 = .error (outOfRangeMsg 11 10)
    ∧ parse_episode_numbers_main ("1,1,2") 10 = .ok [1, 2] := by
  refine ⟨?_, by decide, by decide, by decide, by decide⟩
  intro s maxE l h
  unfold parse_episode_numbers_main at h
  rcases hf : foldTokensMain maxE (pySplit s ',') [] with e | acc <;> rw [hf] at h
  · cases h
  · cases h
    rcases foldTokensMain_invariant hf List.nodup_nil (by intro y hy; cases hy) with ⟨hn, hb⟩
    have hperm := sortBy_perm (fun a b => decide (a ≤ b)) acc
    have hsorted := sortBy_pairwise (fun a b => decide (a ≤ b))
      (fun a b => by rcases le_total a b with h1 | h1 <;> simp [h1])
      (fun a b c h1 h2 => by
        simp only [decide_eq_true_iff] at h1 h2 ⊢
        exact le_trans h1 h2) acc
    have hle : List.Pairwise (fun a b : Int => a ≤ b) (sortBy (fun a b => decide (a ≤ b)) acc) :=
      hsorted.imp (fun hab => by simpa using hab)
    have hnodup : (sortBy (fun a b => decide (a ≤ b)) acc).Nodup := hperm.nodup_iff.mpr hn
    refine ⟨(hle.and hnodup).imp (fun hab => lt_of_le_of_ne hab.1 hab.2), ?_⟩
    intro y hy
    exact hb y (hperm.mem_iff.mp hy)

/-- Witness for C3: the general part applied to the concrete call
`parse("1,1,2", 10)`, whose result `[1,2]` is strictly ascending and within
bounds. -/
theorem parse_episode_numbers_correct_witness :
    List.Pairwise (fun a b : Int => a < b) [1, 2] ∧ ∀ y ∈ ([1, 2] : List Int), 1 ≤ y ∧ y ≤ 10 :=
  parse_episode_numbers_correct.1 ("1,1,2") 10 [1, 2] (by decide)

/-! ## Claim C10: the two parser copies agree -/

theorem processToken_copies_agree :
    processTokenCli = processTokenMain := rfl

theorem foldTokens_copies_agree (maxE : Int) :
    ∀ (parts : List String) (acc : List Int),
      foldTokensCli maxE parts acc = foldTokensMain maxE parts acc := by
  intro parts
  induction parts with
  | nil => intro acc; rfl
  | cons p ps ih =>
    intro acc
    unfold foldTokensCli foldTokensMain
    rw [processToken_copies_agree]
    rcases processTokenMain maxE acc p with e | acc2
    · rfl
    · exact ih acc2

/-- C10: the two textually duplicated copies of `parse_episode_numbers` —
in `main.py` and in `yumechain/cli.py` — are extensionally equal: on every
input string and bound they either fail with the same error or return the
same list. -/
theorem parse_episode_numbers_copies_equal (s : String) (maxEpisode : Int) :
    parse_episode_numbers_main s maxEpisode = parse_episode_numbers_cli s maxEpisode := by
  unfold parse_episode_numbers_main parse_episode_numbers_cli
  rw [foldTokens_copies_agree]

/-! ## Claim C4: merge-save semantics -/

theorem dictGet?_nil {α : Type} (k : String) : dictGet? ([] : List (String × α)) k = none := rfl

theorem dictGet?_cons {α : Type} (p : String × α) (d : List (String × α)) (k : String) :
    dictGet? (p :: d) k = if p.1 = k then some p.2 else dictGet? d k := by
  unfold dictGet?
  rw [List.find?_cons]
  by_cases h : p.1 = k
  · simp [h]
  · simp [h]

theorem dictGet?_eq_none_of_not_mem_keys {α : Type} {d : List (String × α)} {k : String}
    (h : k ∉ d.map Prod.fst) : dictGet? d k = none := by
  unfold dictGet?
  rw [List.find?_eq_none.mpr]
  · rfl
  · intro p hp hpk
    exact h (List.mem_map.mpr ⟨p, hp, by simpa using hpk⟩)

theorem dictGet?_map_replace {α : Type} (k : String) (v : α) :
    ∀ (d : List (String × α)) (q : String),
      dictGet? (d.map (fun p => if p.1 = k then (p.1, v) else p)) q =
        if q = k then (if (d.find? (fun p => decide (p.1 = k))).isSome then some v else none)
        else dictGet? d q := by
  intro d
  induction d with
  | nil =>
    intro q
    by_cases hq : q = k <;> simp [dictGet?, hq]
  | cons p d ih =>
    intro q
    rw [List.map_cons, List.find?_cons]
    by_cases hpk : p.1 = k
    · by_cases hq : q = k
      · simp [dictGet?_cons, hpk, hq]
      · simp [dictGet?_cons, hpk, hq, ih, Ne.symm hq]
    · rw [decide_eq_false hpk]
      by_cases hq : q = k
      · simp [dictGet?_cons, hpk, hq, ih]
      · simp [dictGet?_cons, hpk, hq, ih]

theorem dictGet?_dictSet {α : Type} (d : List (String × α)) (k : String) (v : α) (q : String) :
    dictGet? (dictSet d k v) q = if q = k then some v else dictGet? d q := by
  unfold dictSet
  by_cases hpresent : (d.find? (fun p => decide (p.1 = k))).isSome = true
  · rw [if_pos hpresent, dictGet?_map_replace, if_pos hpresent]
  · rw [if_neg hpresent]
    by_cases hq : q = k
    · subst hq
      have hnone : List.find? (fun p => decide (p.1 = q)) d = none := by
        rcases h : List.find? (fun p => decide (p.1 = q)) d with _ | p
        · exact h
        · exact absurd (by simp [h]) hpresent
      unfold dictGet?
      rw [List.find?_append, hnone]
      simp [List.find?_cons]
    · unfold dictGet?
      rw [List.find?_append]
      rcases h : List.find? (fun p => decide (p.1 = q)) d with _ | p
      · simp [List.find?_cons, Ne.symm hq, hq]
      · simp [h, hq]

theorem dictGet?_dictUpdate :
    ∀ (new old : PlotStore) (k : String), (new.map Prod.fst).Nodup →
      dictGet? (dictUpdate old new) k = (dictGet? new k).or (dictGet? old k) := by
  intro new
  induction new with
  | nil =>
    intro old k _
    simp [dictUpdate, dictGet?_nil]
  | cons p ps ih =>
    intro old k hn
    have hstep : dictUpdate old (p :: ps) = dictUpdate (dictSet old p.1 p.2) ps := rfl
    rw [hstep, ih (dictSet old p.1 p.2) k (by simpa using (List.nodup_cons.mp (by simpa using hn)).2)]
    rw [dictGet?_cons, dictGet?_dictSet]
    by_cases hk : k = p.1
    · have hkeys : p.1 ∉ ps.map Prod.fst := (List.nodup_cons.mp (by simpa using hn)).1
      rw [dictGet?_eq_none_of_not_mem_keys (hk ▸ hkeys), if_pos hk.symm, if_pos hk]
      rfl
    · rw [if_neg (fun h : p.1 = k => hk h.symm), if_neg hk]

/-- C4: saving with `merge = true` onto an existing persisted store updates
by arc key: a lookup in the merged store yields the new data's episode map
for every arc key the new data mentions (full replacement, no per-episode
merge) and the old map for every other arc; concretely, saving `{"C": ...}`
onto a store with arcs `A` and `B` yields all three arcs, and re-saving `A`
fully replaces its episode map. -/
theorem save_plot_merge_by_arc :
    (∀ (old new : PlotStore) (k : String), (new.map Prod.fst).Nodup →
        dictGet? (save_plot (some old) new true) k = (dictGet? new k).or (dictGet? old k))
    ∧ save_plot (some [("A", [("1","a-old")]), ("B", [("1","b1")])]) [("C", [("1","c1")])] true
        = [("A", [("1","a-old")]), ("B", [("1","b1")]), ("C", [("1","c1")])]
    ∧ save_plot (some [("A", [("1","a-old")]), ("B", [("1","b1")])]) [("A", [("2","a-new")])] true
        = [("A", [("2","a-new")]), ("B", [("1","b1")])] := by
  refine ⟨?_, by decide, by decide⟩
  intro old new k hn
  exact dictGet?_dictUpdate new old k hn

/-- Witness for C4: the general merge-lookup law applied to a concrete
re-save of arc `A`. -/
theorem save_plot_merge_by_arc_witness :
    dictGet? (save_plot (some [("A", [("1","a-old")])]) [("A", [("2","a-new")])] true) ("A")
      = (dictGet? [("A", [("2","a-new")])] ("A")).or (dictGet? [("A", [("1","a-old")])] ("A")) :=
  save_plot_merge_by_arc.1 [("A", [("1","a-old")])] [("A", [("2","a-new")])] ("A") (by decide)

/-! ## Claims C9, C5, C6: assembler lookup and template choice -/

theorem pyTruthy_eq_true_iff (s : String) : pyTruthy s = true ↔ s ≠ "" := by
  unfold pyTruthy
  rcases s with ⟨l⟩
  cases l <;> simp [String.ext_iff]

/-- C9: in `generate_episode_with_context`, the lookup
`plot_data.get(arc, {}).get(str(episode), "")` followed by the falsy check
raises the same "Episode not found" `ValueError` whether the key is absent
or present with empty plot text — an existing episode with empty text is
indistinguishable from a missing one at this interface. -/
theorem empty_plot_indistinguishable_from_missing :
    ∀ (plot_data : PlotStore) (arc : String) (episode : Int),
      (dictGet? ((dictGet? plot_data arc).getD []) (intToStr episode) = some "" ∨
        dictGet? ((dictGet? plot_data arc).getD []) (intToStr episode) = none) →
      assembler_current_plot plot_data arc episode = .error (episodeNotFoundMsg episode arc) := by
  intro pd arc ep h
  rcases h with h | h <;> simp [assembler_current_plot, h, pyTruthy]

/-- Witness for C9: a store whose episode `1` exists with empty text. -/
theorem empty_plot_indistinguishable_from_missing_witness :
    assembler_current_plot [("A", [("1", "")])] ("A") 1 = .error (episodeNotFoundMsg 1 ("A")) :=
  empty_plot_indistinguishable_from_missing [("A", [("1", "")])] ("A") 1 (Or.inl (by decide))

/-- C5 counterexample: with the arc `B` entirely absent from the store, the
context assembler (`generate_episode_with_context`) raises the
EpisodeNotFound-style `ValueError`, which is not the ArcNotFound error the
claim says it fails with. -/
theorem assembler_arc_absent_counterexample :
    generate_episode_with_context [("A", [("1", "x")])] ("B") 1
        = .error (episodeNotFoundMsg 1 ("B"))
      ∧ episodeNotFoundMsg 1 ("B") ≠ arcNotFoundMsg ("B") := ⟨by decide, by decide⟩

/-- C5 (amended): the context assembler computes `current_plot` with
`plot_data.get(arc, {}).get(str(episode), "")` and fails with the
EpisodeNotFound error when the episode is absent within an otherwise-valid
arc — and with that same EpisodeNotFound error (not an ArcNotFound error)
when the arc itself is absent; the distinct ArcNotFound error is raised by
`FileManager.get_episode_plot`, which reports ArcNotFound for a missing arc
and EpisodeNotFound for a missing episode.  All errors propagate to the
caller instead of returning a value. -/
theorem context_lookup_error_kinds :
    (∀ (plot_data : PlotStore) (arc : String) (episode : Int) (arcMap : EpisodeMap),
        dictGet? plot_data arc = some arcMap → dictGet? arcMap (intToStr episode) = none →
          generate_episode_with_context plot_data arc episode
              = .error (episodeNotFoundMsg episode arc)
            ∧ get_episode_plot plot_data arc episode = .error (episodeNotFoundMsg episode arc))
    ∧ (∀ (plot_data : PlotStore) (arc : String) (episode : Int),
        dictGet? plot_data arc = none →
          generate_episode_with_context plot_data arc episode
              = .error (episodeNotFoundMsg episode arc)
            ∧ get_episode_plot plot_data arc episode = .error (arcNotFoundMsg arc)) := by
  constructor
  · intro pd arc ep arcMap h1 h2
    constructor
    · simp [generate_episode_with_context, assembler_current_plot, h1, h2, pyTruthy]
    · simp [get_episode_plot, h1, h2]
  · intro pd arc ep h1
    constructor
    · simp [generate_episode_with_context, assembler_current_plot, h1, pyTruthy, dictGet?_nil]
    · simp [get_episode_plot, h1]

/-- Witness for C5 (amended): missing episode `2` in a valid arc. -/
theorem context_lookup_error_kinds_witness :
    generate_episode_with_context [("A", [("1", "x")])] ("A") 2
        = .error (episodeNotFoundMsg 2 ("A"))
      ∧ get_episode_plot [("A", [("1", "x")])] ("A") 2 = .error (episodeNotFoundMsg 2 ("A")) :=
  context_lookup_error_kinds.1 [("A", [("1", "x")])] ("A") 2 [("1", "x")] (by decide) (by decide)

/-- C6: whenever episode generation succeeds in choosing a prompt, it uses
the "with adjacency context" template exactly when at least one of the
resolved previous/next plots is a non-empty string, and the plain
single-plot template otherwise. -/
theorem prompt_template_iff_context :
    ∀ (plot_data : PlotStore) (arc : String) (episode : Int) (v : PromptVariant),
      generate_episode_with_context plot_data arc episode = .ok v →
      (v = .withContext ↔
        (get_adjacent_episode_plot_by_file_order plot_data arc episode .previous ≠ "" ∨
          get_adjacent_episode_plot_by_file_order plot_data arc episode .next ≠ "")) := by
  intro pd arc ep v h
  unfold generate_episode_with_context at h
  rcases hc : assembler_current_plot pd arc ep with e | cur <;> rw [hc] at h
  · cases h
  · by_cases hcond :
      (pyTruthy (get_adjacent_episode_plot_by_file_order pd arc ep .previous)
        || pyTruthy (get_adjacent_episode_plot_by_file_order pd arc ep .next)) = true
    · rw [if_pos hcond] at h
      cases h
      constructor
      · intro _
        rcases Bool.or_eq_true_iff.mp hcond with hp | hp
        · exact Or.inl ((pyTruthy_eq_true_iff _).mp hp)
        · exact Or.inr ((pyTruthy_eq_true_iff _).mp hp)
      · intro _
        rfl
    · rw [if_neg hcond] at h
      cases h
      constructor
      · intro hv
        exact absurd hv (by decide)
      · intro hdisj
        exfalso
        apply hcond
        rcases hdisj with hd | hd
        · exact Bool.or_eq_true_iff.mpr (Or.inl ((pyTruthy_eq_true_iff _).mpr hd))
        · exact Bool.or_eq_true_iff.mpr (Or.inr ((pyTruthy_eq_true_iff _).mpr hd))

/-- Witness for C6: episode `(A, 1)` of a two-episode arc has a non-empty
next plot, so the contextual template is chosen. -/
theorem prompt_template_iff_context_witness :
    (PromptVariant.withContext = PromptVariant.withContext ↔
      (get_adjacent_episode_plot_by_file_order [("A", [("1", "a1"), ("2", "a2")])] ("A") 1 .previous ≠ ""
        ∨ get_adjacent_episode_plot_by_file_order [("A", [("1", "a1"), ("2", "a2")])] ("A") 1 .next ≠ "")) :=
  prompt_template_iff_context [("A", [("1", "a1"), ("2", "a2")])] ("A") 1 .withContext (by decide)

/-! ## Claims C1, C2, C7: the adjacency resolver -/

theorem findIdx?_append_skip {α : Type} {p : α → Bool} :
    ∀ (pre rest : List α) (i : Nat), (∀ x ∈ pre, p x = false) →
      List.findIdx? p (pre ++ rest) i = List.findIdx? p rest (i + pre.length) := by
  intro pre
  induction pre with
  | nil => intro rest i _; simp
  | cons a as ih =>
    intro rest i hall
    rw [List.cons_append, List.findIdx?_cons, if_neg (by simp [hall a (List.mem_cons_self a as)]),
      ih rest (i + 1) (fun x hx => hall x (List.mem_cons_of_mem a hx))]
    congr 1
    simp
    omega

/-- C1: the episode order resolver works on the global order — the store
flattened to `(arc, episode, text)` triples and sorted ascending by
`(arc, episode)` — where entries with unparsable episode keys are silently
dropped without affecting the rest (first conjunct), and it answers a
`previous` query with the text of the entry immediately before the first
triple matching the target in that order, regardless of arc boundaries
(second conjunct). -/
theorem resolver_previous_entry :
    (∀ (pre post : PlotStore) (a : String) (eps1 eps2 : EpisodeMap) (k txt : String),
        pyInt? k = none →
        globalOrder (pre ++ (a, eps1 ++ (k, txt) :: eps2) :: post)
          = globalOrder (pre ++ (a, eps1 ++ eps2) :: post))
    ∧ (∀ (store : PlotStore) (arc : String) (episode : Int)
        (pre post : List (String × Int × String)) (p t : String × Int × String),
        globalOrder store = pre ++ p :: t :: post →
        tripleMatches arc episode t = true →
        (∀ q ∈ pre, tripleMatches arc episode q = false) →
        tripleMatches arc episode p = false →
        get_adjacent_episode_plot_by_file_order store arc episode .previous = p.2.2) := by
  constructor
  · intro pre post a eps1 eps2 k txt hk
    unfold globalOrder flattenTriples
    congr 1
    simp [List.filterMap_append, hk]
  · intro store arc episode pre post p t hsplit ht hpre hp
    have hidx : List.findIdx? (tripleMatches arc episode) (pre ++ p :: t :: post)
        = some (pre.length + 1) := by
      rw [findIdx?_append_skip pre (p :: t :: post) 0 hpre, List.findIdx?_cons,
        if_neg (by simp [hp]), List.findIdx?_cons, if_pos ht]
      congr 1
      omega
    have hget : (pre ++ p :: t :: post)[pre.length + 1 - 1]? = some p := by
      rw [Nat.add_sub_cancel, List.getElem?_append_right (Nat.le_refl pre.length)]
      simp
    unfold get_adjacent_episode_plot_by_file_order
    rw [hsplit]
    simp only [hidx, hget]
    simp

/-- Witness for C1: in the store `{"A": {"1": "a1", "2": "a2"},
"B": {"1": "b1"}}` the neighbour before `(B, 1)` is `"a2"`, crossing the
arc boundary. -/
theorem resolver_previous_entry_witness :
    get_adjacent_episode_plot_by_file_order
        [("A", [("1", "a1"), ("2", "a2")]), ("B", [("1", "b1")])] ("B") 1 .previous = "a2" :=
  resolver_previous_entry.2 [("A", [("1", "a1"), ("2", "a2")]), ("B", [("1", "b1")])] ("B") 1
    [("A", 1, "a1")] [] ("A", 2, "a2") ("B", 1, "b1") (by decide) (by decide) (by decide) (by decide)

/-- C2: an adjacency lookup never raises when there is no neighbour: for
every plot store and every disk-read oracle, `get_previous_episode_content`
answers the empty string both when the target heads the global order (the
globally first episode) and when the target is not found in the flattened
order at all. -/
theorem adjacency_no_neighbor_empty :
    ∀ (readEpisode : String → Int → String) (store : PlotStore) (arc : String) (episode : Int),
      ((∀ q ∈ flattenPairs store, pairMatches arc episode q = false) ∨
        (∃ t rest, sortBy pairLe (flattenPairs store) = t :: rest ∧ pairMatches arc episode t = true)) →
      get_previous_episode_content readEpisode store arc episode = "" := by
  intro re store arc ep h
  unfold get_previous_episode_content
  rcases h with h | ⟨t, rest, heq, ht⟩
  · have hnone : List.findIdx? (pairMatches arc ep) (sortBy pairLe (flattenPairs store)) = none := by
      rw [List.findIdx?_eq_none_iff]
      intro x hx
      exact h x ((sortBy_perm pairLe (flattenPairs store)).mem_iff.mp hx)
    simp only [hnone]
  · rw [heq]
    simp only [List.findIdx?_cons, ht, if_true]

/-- Witness for C2: the globally first episode `(A, 1)` has an empty
`previous`, whatever the episode files on disk contain. -/
theorem adjacency_no_neighbor_empty_witness :
    get_previous_episode_content (fun a e => a ++ intToStr e)
      [("A", [("1", "a1"), ("2", "a2")]), ("B", [("1", "b1")])] ("A") 1 = "" :=
  adjacency_no_neighbor_empty (fun a e => a ++ intToStr e)
    [("A", [("1", "a1"), ("2", "a2")]), ("B", [("1", "b1")])] ("A") 1
    (Or.inr ⟨("A", 1), [("A", 2), ("B", 1)], by decide, by decide⟩)

/-- C7: adjacency resolution is a pure function of the snapshot passed in:
for any two program states agreeing on the plot-store snapshot — however
their story files or network history differ — the resolver returns the same
answer, and it returns its own state unchanged (no side effects, no disk or
network access). -/
theorem resolver_noninterference :
    ∀ (s1 s2 : AppState) (arc : String) (episode : Int) (d : Direction),
      s1.plotStore = s2.plotStore →
      (resolveAdjacentInState s1 arc episode d).1 = (resolveAdjacentInState s2 arc episode d).1
        ∧ (resolveAdjacentInState s1 arc episode d).2 = s1 := by
  intro s1 s2 arc ep d h
  unfold resolveAdjacentInState
  rw [h]
  exact ⟨rfl, rfl⟩

/-- Witness for C7: two states with the same snapshot but different disk
and network components yield the same answer, and the state is untouched. -/
theorem resolver_noninterference_witness :
    (resolveAdjacentInState
        ⟨[("A", [("1", "a1")])], [("f.md", "x")], ["GET /one"]⟩ ("A") 1 .next).1
      = (resolveAdjacentInState
        ⟨[("A", [("1", "a1")])], [], []⟩ ("A") 1 .next).1
    ∧ (resolveAdjacentInState
        ⟨[("A", [("1", "a1")])], [("f.md", "x")], ["GET /one"]⟩ ("A") 1 .next).2
      = ⟨[("A", [("1", "a1")])], [("f.md", "x")], ["GET /one"]⟩ :=
  resolver_noninterference ⟨[("A", [("1", "a1")])], [("f.md", "x")], ["GET /one"]⟩
    ⟨[("A", [("1", "a1")])], [], []⟩ ("A") 1 .next rfl

/-! ## Claim C8: batch generation, abort and continue -/

theorem runEpisodeLoop_spec (pd : PlotStore) (arc : String) (exi : Int → Bool)
    (force : Bool) (genOk : Int → Bool) :
    ∀ (eps : List Int) (s e : Nat) (tr : List BatchEvent),
      ∃ tr2,
        runEpisodeLoop pd arc exi force genOk eps (s, e, tr) =
          (s + (eps.filter (fun ep => !(exi ep && !force)
                  && ((get_episode_plot pd arc ep).isOk && genOk ep))).length,
           e + (eps.filter (fun ep => !(exi ep && !force)
                  && !((get_episode_plot pd arc ep).isOk && genOk ep))).length,
           tr ++ tr2)
        ∧ ∀ ep ∈ eps, (!(exi ep && !force) && (get_episode_plot pd arc ep).isOk) = true →
            BatchEvent.llmCall ep ∈ tr2 := by
  intro eps
  induction eps with
  | nil =>
    intro s e tr
    exact ⟨[], by simp [runEpisodeLoop], by simp⟩
  | cons ep rest ih =>
    intro s e tr
    by_cases hskip : (exi ep && !force) = true
    · obtain ⟨tr2, heq, hmem⟩ := ih s e tr
      have hs : (!(exi ep && !force)
          && ((get_episode_plot pd arc ep).isOk && genOk ep)) = false := by simp [hskip]
      have hf : (!(exi ep && !force)
          && !((get_episode_plot pd arc ep).isOk && genOk ep)) = false := by simp [hskip]
      refine ⟨tr2, ?_, ?_⟩
      · rw [show runEpisodeLoop pd arc exi force genOk (ep :: rest) (s, e, tr)
              = runEpisodeLoop pd arc exi force genOk rest (s, e, tr) from by
            simp only [runEpisodeLoop]
            rw [if_pos hskip]]
        rw [heq, @List.filter_cons_of_neg _ (fun ep => !(exi ep && !force) && ((get_episode_plot pd arc ep).isOk && genOk ep)) ep rest (by simp only [hs]; simp),
          @List.filter_cons_of_neg _ (fun ep => !(exi ep && !force) && !((get_episode_plot pd arc ep).isOk && genOk ep)) ep rest (by simp only [hf]; simp)]
      · intro x hx hcond
        rcases List.mem_cons.mp hx with rfl | hx2
        · rw [hskip] at hcond
          simp at hcond
        · exact hmem x hx2 hcond
    · have hskip2 : (exi ep && !force) = false := by
        revert hskip
        cases (exi ep && !force) <;> simp
      rcases hplot : get_episode_plot pd arc ep with msg | txt
      · obtain ⟨tr2, heq, hmem⟩ := ih s (e + 1) tr
        have hs : (!(exi ep && !force)
            && ((get_episode_plot pd arc ep).isOk && genOk ep)) = false := by
          simp [hplot, Except.isOk, Except.toBool]
        have hf : (!(exi ep && !force)
            && !((get_episode_plot pd arc ep).isOk && genOk ep)) = true := by
          simp [hskip2, hplot, Except.isOk, Except.toBool]
        refine ⟨tr2, ?_, ?_⟩
        · rw [show runEpisodeLoop pd arc exi force genOk (ep :: rest) (s, e, tr)
                = runEpisodeLoop pd arc exi force genOk rest (s, e + 1, tr) from by
              simp only [runEpisodeLoop]
              rw [if_neg hskip, hplot]]
          rw [heq, @List.filter_cons_of_neg _ (fun ep => !(exi ep && !force) && ((get_episode_plot pd arc ep).isOk && genOk ep)) ep rest (by simp only [hs]; simp),
            @List.filter_cons_of_pos _ (fun ep => !(exi ep && !force) && !((get_episode_plot pd arc ep).isOk && genOk ep)) ep rest hf]
          simp only [Prod.mk.injEq, List.length_cons]
          refine ⟨?_, ?_, ?_⟩ <;> first | trivial | omega | simp
        · intro x hx hcond
          rcases List.mem_cons.mp hx with rfl | hx2
          · rw [hplot] at hcond
            simp [Except.isOk, Except.toBool] at hcond
          · exact hmem x hx2 hcond
      · by_cases hgen : genOk ep = true
        · obtain ⟨tr2, heq, hmem⟩ := ih (s + 1) e (tr ++ [.llmCall ep, .saved ep])
          have hs : (!(exi ep && !force)
              && ((get_episode_plot pd arc ep).isOk && genOk ep)) = true := by
            simp [hskip2, hplot, hgen, Except.isOk, Except.toBool]
          have hf : (!(exi ep && !force)
              && !((get_episode_plot pd arc ep).isOk && genOk ep)) = false := by
            simp [hplot, hgen, Except.isOk, Except.toBool]
          refine ⟨.llmCall ep :: .saved ep :: tr2, ?_, ?_⟩
          · rw [show runEpisodeLoop pd arc exi force genOk (ep :: rest) (s, e, tr)
                  = runEpisodeLoop pd arc exi force genOk rest
                      (s + 1, e, tr ++ [.llmCall ep, .saved ep]) from by
                simp only [runEpisodeLoop]
                rw [if_neg hskip, hplot, if_pos hgen]]
            rw [heq, @List.filter_cons_of_pos _ (fun ep => !(exi ep && !force) && ((get_episode_plot pd arc ep).isOk && genOk ep)) ep rest hs,
              @List.filter_cons_of_neg _ (fun ep => !(exi ep && !force) && !((get_episode_plot pd arc ep).isOk && genOk ep)) ep rest (by simp only [hf]; simp)]
            simp only [Prod.mk.injEq, List.length_cons]
            refine ⟨?_, ?_, ?_⟩ <;> first | trivial | omega | simp
          · intro x hx hcond
            rcases List.mem_cons.mp hx with rfl | hx2
            · exact List.mem_cons_self _ _
            · exact List.mem_cons_of_mem _ (List.mem_cons_of_mem _ (hmem x hx2 hcond))
        · have hgen2 : genOk ep = false := by
            revert hgen
            cases genOk ep <;> simp
          obtain ⟨tr2, heq, hmem⟩ := ih s (e + 1) (tr ++ [.llmCall ep])
          have hs : (!(exi ep && !force)
              && ((get_episode_plot pd arc ep).isOk && genOk ep)) = false := by
            simp [hgen2]
          have hf : (!(exi ep && !force)
              && !((get_episode_plot pd arc ep).isOk && genOk ep)) = true := by
            simp [hskip2, hplot, hgen2, Except.isOk, Except.toBool]
          refine ⟨.llmCall ep :: tr2, ?_, ?_⟩
          · rw [show runEpisodeLoop pd arc exi force genOk (ep :: rest) (s, e, tr)
                  = runEpisodeLoop pd arc exi force genOk rest
                      (s, e + 1, tr ++ [.llmCall ep]) from by
                simp only [runEpisodeLoop]
                rw [if_neg hskip, hplot, if_neg (by simp [hgen2])]]
            rw [heq, @List.filter_cons_of_neg _ (fun ep => !(exi ep && !force) && ((get_episode_plot pd arc ep).isOk && genOk ep)) ep rest (by simp only [hs]; simp),
              @List.filter_cons_of_pos _ (fun ep => !(exi ep && !force) && !((get_episode_plot pd arc ep).isOk && genOk ep)) ep rest hf]
            simp only [Prod.mk.injEq, List.length_cons]
            refine ⟨?_, ?_, ?_⟩ <;> first | trivial | omega | simp
          · intro x hx hcond
            rcases List.mem_cons.mp hx with rfl | hx2
            · exact List.mem_cons_self _ _
            · exact List.mem_cons_of_mem _ (hmem x hx2 hcond)

/-- C8: in batch episode generation, a missing plot file or a range-parse
failure aborts the run before any LLM generation call (no `llmCall` event in
the trace), while on the happy path the loop runs to the end: every
requested, non-skipped episode with a readable plot is attempted even when
earlier episodes failed, and the run ends with a report counting exactly the
successful and the failed episodes. -/
theorem batch_abort_and_continue :
    (∀ (arc episodesStr : String) (settings : Option String) (dryRun force : Bool)
        (exi genOk : Int → Bool) (ep : Int),
        BatchEvent.llmCall ep ∉
          generate_episode_batch none arc episodesStr settings dryRun force exi genOk)
    ∧ (∀ (pd : PlotStore) (arc episodesStr : String) (settings : Option String)
        (dryRun force : Bool) (exi genOk : Int → Bool) (arcMap : EpisodeMap) (m : String)
        (ep : Int),
        dictGet? pd arc = some arcMap →
        parse_episode_numbers_main episodesStr (arcMap.length : Int) = .error m →
        BatchEvent.llmCall ep ∉
          generate_episode_batch (some pd) arc episodesStr settings dryRun force exi genOk)
    ∧ (∀ (pd : PlotStore) (arc episodesStr se : String) (force : Bool)
        (exi genOk : Int → Bool) (arcMap : EpisodeMap) (eps : List Int),
        dictGet? pd arc = some arcMap →
        parse_episode_numbers_main episodesStr (arcMap.length : Int) = .ok eps →
        ∃ tr2,
          generate_episode_batch (some pd) arc episodesStr (some se) false force exi genOk
            = tr2 ++ [.report
                (eps.filter (fun ep => !(exi ep && !force)
                    && ((get_episode_plot pd arc ep).isOk && genOk ep))).length
                (eps.filter (fun ep => !(exi ep && !force)
                    && !((get_episode_plot pd arc ep).isOk && genOk ep))).length]
            ∧ ∀ ep ∈ eps, (!(exi ep && !force) && (get_episode_plot pd arc ep).isOk) = true →
                BatchEvent.llmCall ep ∈ tr2) := by
  refine ⟨?_, ?_, ?_⟩
  · intro arc episodesStr settings dryRun force exi genOk ep
    simp [generate_episode_batch]
  · intro pd arc episodesStr settings dryRun force exi genOk arcMap m ep h1 h2
    simp only [generate_episode_batch]
    split
    · simp
    · rename_i arcMap2 hv
      rw [h1] at hv
      injection hv with hv
      subst hv
      split
      · rename_i m2 hv2
        rw [h2] at hv2
        injection hv2 with hv2
        subst hv2
        simp
      · rename_i eps2 hv2
        rw [h2] at hv2
        simp at hv2
  · intro pd arc episodesStr se force exi genOk arcMap eps h1 h2
    obtain ⟨tr2, heq, hmem⟩ := runEpisodeLoop_spec pd arc exi force genOk eps 0 0 []
    refine ⟨tr2, ?_, hmem⟩
    simp only [generate_episode_batch]
    split
    · rename_i hv
      rw [h1] at hv
      simp at hv
    · rename_i arcMap2 hv
      rw [h1] at hv
      injection hv with hv
      subst hv
      split
      · rename_i m2 hv2
        rw [h2] at hv2
        simp at hv2
      · rename_i eps2 hv2
        rw [h2] at hv2
        injection hv2 with hv2
        subst hv2
        rw [heq]
        simp

/-- Witness for C8: a concrete two-episode batch where episode 1 generates
successfully and episode 2 fails; the report still arrives and both episodes
were attempted. -/
theorem batch_abort_and_continue_witness :
    ∃ tr2,
      generate_episode_batch (some [("A", [("1", "a1"), ("2", "a2")])]) ("A") ("1-2") (some ("s"))
          false false (fun _ => false) (fun ep => decide (ep = 1))
        = tr2 ++ [.report
            (([1, 2] : List Int).filter (fun ep => !((fun _ : Int => false) ep && !false)
                && ((get_episode_plot [("A", [("1", "a1"), ("2", "a2")])] ("A") ep).isOk
                  && (fun ep : Int => decide (ep = 1)) ep))).length
            (([1, 2] : List Int).filter (fun ep => !((fun _ : Int => false) ep && !false)
                && !((get_episode_plot [("A", [("1", "a1"), ("2", "a2")])] ("A") ep).isOk
                  && (fun ep : Int => decide (ep = 1)) ep))).length]
        ∧ ∀ ep ∈ ([1, 2] : List Int),
            (!((fun _ : Int => false) ep && !false)
              && (get_episode_plot [("A", [("1", "a1"), ("2", "a2")])] ("A") ep).isOk) = true →
            BatchEvent.llmCall ep ∈ tr2 :=
  batch_abort_and_continue.2.2 [("A", [("1", "a1"), ("2", "a2")])] ("A") ("1-2") ("s") false
    (fun _ => false) (fun ep => decide (ep = 1)) [("1", "a1"), ("2", "a2")] [1, 2]
    (by decide) (by decide)

end YumeChain
